import Mathlib

/-
  Verification of the data-integrity and recovery subsystem of the
  `hltvy` repository (scripts/cleanup_data.py, scripts/recovery_helper.py,
  scripts/monitor_system.py, scripts/validate_data.py).

  The JSON artifacts are shallowly embedded: a match record carries the
  value stored under its `match-id` key (a JSON scalar, or `none` when the
  key is absent), the value under `date` (typed as a string per the data
  model) and the value under `url`.  Python `dict.get` returning `None`
  for both an absent key and a stored JSON null is reflected by
  `MatchRec.pyId`.  Python's stable `list.sort(key, reverse=True)` is
  modelled by `List.mergeSort` with the reversed key comparison: a stable
  sort is uniquely determined by the comparator, so any stable sort
  implementation agrees with CPython's.
-/

namespace Hltvy

/-- A JSON scalar value as it can appear under an identity key
(`match-id`).  Integers, strings and null cover the values the scripts
distinguish: Python truthiness and equality on them are total. -/
inductive JVal where
  | vInt (n : Int)
  | vStr (s : String)
  | vNull
deriving DecidableEq

/-- Python truthiness of a JSON scalar: `0`, the empty string and `null`
are falsy, everything else is truthy. -/
def JVal.truthy : JVal → Bool
  | vInt n => decide (n ≠ 0)
  | vStr s => decide (s ≠ "")
  | vNull => false

/-- Total Boolean order on `JVal`.  Within one constructor it is exactly
Python's `<=` on ints and on strings (code-point lexicographic).  Across
constructors CPython raises `TypeError`; the order is extended arbitrarily
(`null < int < str`) so that it is total, and every theorem about sorting
carries the hypothesis that all identity values are integers or absent,
under which the arbitrary arms are never exercised. -/
def JVal.le : JVal → JVal → Bool
  | vNull, _ => true
  | vInt _, vNull => false
  | vStr _, vNull => false
  | vInt a, vInt b => decide (a ≤ b)
  | vInt _, vStr _ => true
  | vStr _, vInt _ => false
  | vStr a, vStr b => decide (a ≤ b)

/-- A record of `results.json`.  `matchId` is the value stored under the
`match-id` key (`none` when the key is absent), `date` the value under
`date` (typed as a string per the data model, `none` when absent or null)
and `url` the value under `url`. -/
structure MatchRec where
  matchId : Option JVal
  date : Option String
  url : Option String
deriving DecidableEq

/-- Python `match.get('match-id')`: an absent key and a stored JSON null
both read back as `None`, modelled as `vNull`. -/
def MatchRec.pyId (m : MatchRec) : JVal :=
  m.matchId.getD .vNull

/-- True when the record's `match-id` is an integer or absent: the domain
on which Python's composite sort key never raises `TypeError`. -/
def MatchRec.intIdTyped (m : MatchRec) : Bool :=
  match m.matchId with
  | none => true
  | some (.vInt _) => true
  | some _ => false

/-- The duplicate-removal loop shared by `cleanup_results_data`
(cleanup_data.py lines 44-56) and `fix_duplicate_matches`
(recovery_helper.py lines 134-146): iterate in order with a seen-set;
a truthy unseen id is kept and remembered, a falsy id (absent key, null,
`0`, empty string) is kept with a warning, a truthy already-seen id is
dropped.  This function computes the kept records. -/
def dedupeFilterAux : List JVal → List MatchRec → List MatchRec
  | _, [] => []
  | seen, m :: rest =>
    if m.pyId.truthy = true ∧ m.pyId ∉ seen then m :: dedupeFilterAux (m.pyId :: seen) rest
    else if m.pyId.truthy = false then m :: dedupeFilterAux seen rest
    else dedupeFilterAux seen rest

/-- The same loop, computing how many "Found match without match-id"
warnings it logs (one per kept record whose id is falsy). -/
def dedupeCountAux : List JVal → List MatchRec → Nat
  | _, [] => 0
  | seen, m :: rest =>
    if m.pyId.truthy = true ∧ m.pyId ∉ seen then dedupeCountAux (m.pyId :: seen) rest
    else if m.pyId.truthy = false then dedupeCountAux seen rest + 1
    else dedupeCountAux seen rest

/-- The deduplicated record list. -/
def dedupe_filter (l : List MatchRec) : List MatchRec :=
  dedupeFilterAux [] l

/-- The number of "Found match without match-id" warnings the loop logs. -/
def dedupe_warnings (l : List MatchRec) : Nat :=
  dedupeCountAux [] l

/-- The composite sort key of `cleanup_results_data` (cleanup_data.py
lines 59-62): `(match.get('date', '1900-01-01'), match.get('match-id', 0))`. -/
def sort_key (m : MatchRec) : String × JVal :=
  (m.date.getD "1900-01-01", m.matchId.getD (.vInt 0))

/-- Python's ascending comparison on the key tuples:
`(d1, m1) <= (d2, m2)` iff `d1 < d2` or (`d1 = d2` and `m1 <= m2`). -/
def keyLe (a b : String × JVal) : Bool :=
  decide (a.1 < b.1) || (decide (a.1 = b.1) && JVal.le a.2 b.2)

/-- Comparator realising `cleaned_results.sort(key=sort_key, reverse=True)`:
`a` may precede `b` iff `a`'s key is greater than or equal to `b`'s.
A stable sort with this comparator is exactly CPython's stable
descending sort. -/
def resultsGe (a b : MatchRec) : Bool :=
  keyLe (sort_key b) (sort_key a)

/-- The pure core of `cleanup_results_data` (cleanup_data.py lines 34-74):
on an empty collection the function returns without writing, so the file
content is unchanged; otherwise it deduplicates, sorts newest-first by
`(date, match-id)` and truncates to the 10,000 most recent records. -/
def cleanup_results_data (results : List MatchRec) : List MatchRec :=
  if results.isEmpty then results
  else
    let cleaned := dedupe_filter results
    let sorted := cleaned.mergeSort resultsGe
    if sorted.length > 10000 then sorted.take 10000 else sorted

/-- Comparator of `fix_duplicate_matches` (recovery_helper.py line 149):
`unique_results.sort(key=lambda x: x.get('match-id', 0), reverse=True)` -
descending by `match-id` alone, the date plays no role. -/
def matchIdGe (a b : MatchRec) : Bool :=
  JVal.le (b.matchId.getD (.vInt 0)) (a.matchId.getD (.vInt 0))

/-- The pure core of `fix_duplicate_matches` (recovery_helper.py lines
118-156): deduplicate by `match-id`, then sort by `match-id` descending. -/
def fix_duplicate_matches (results : List MatchRec) : List MatchRec :=
  (dedupe_filter results).mergeSort matchIdGe

/-- The duplicate-id detection of `DataValidator.validate_results`
(validate_data.py lines 69-86): walk the records with an index and a
seen-set; a truthy id already seen produces a "Duplicate match-id" error
`(index, value)`; falsy ids are never examined. -/
def dupErrorsAux : List JVal → Nat → List MatchRec → List (Nat × JVal)
  | _, _, [] => []
  | seen, i, m :: rest =>
    if m.pyId.truthy = true then
      if m.pyId ∈ seen then (i, m.pyId) :: dupErrorsAux (m.pyId :: seen) (i + 1) rest
      else dupErrorsAux (m.pyId :: seen) (i + 1) rest
    else dupErrorsAux seen (i + 1) rest

/-- The list of duplicate-match-id validation errors for a collection. -/
def duplicate_id_errors (l : List MatchRec) : List (Nat × JVal) :=
  dupErrorsAux [] 0 l

/-- The scrape checkpoint `scrape_state.json`: `resultsOffset` is the
value under the `results_offset` key (`none` when absent) and
`enrichedMatchIds` the mapping under `enriched_match_ids` (`none` when
absent), modelled as the insertion-ordered key-value list of the JSON
object. -/
structure ScrapeState where
  resultsOffset : Option Int
  enrichedMatchIds : Option (List (String × JVal))
deriving DecidableEq

/-- Comparator realising
`sorted(enriched_ids.items(), key=lambda x: x[0], reverse=True)`:
descending by key string. -/
def enrichedKeyGe (a b : String × JVal) : Bool :=
  decide (b.1 ≤ a.1)

/-- The pure state transform of `cleanup_state_files` (cleanup_data.py
lines 112-132): reset `results_offset` to 0 when it exceeds 50,000
(reading it with default 0), and when `enriched_match_ids` holds more
than 5,000 entries keep only the top 5,000 after sorting by key
descending.  Returns the new state and the log lines. -/
def cleanup_state (s : ScrapeState) : ScrapeState × List String :=
  let step1 : ScrapeState × List String :=
    if s.resultsOffset.getD 0 > 50000 then
      ({ s with resultsOffset := some 0 }, ["Resetting high results_offset"])
    else (s, [])
  let e := step1.1.enrichedMatchIds.getD []
  if e.length > 5000 then
    ({ step1.1 with enrichedMatchIds := some ((e.mergeSort enrichedKeyGe).take 5000) },
      step1.2 ++ ["Cleaning up enriched_match_ids"])
  else step1

/-- The pure core of `reset_scrape_state` (recovery_helper.py lines
162-193): load the state (an empty object when the file is missing),
optionally zero the offset, optionally empty the enrichment cache, then
`setdefault` both required fields. -/
def reset_scrape_state (resetOffset resetEnriched : Bool) (s : Option ScrapeState) :
    ScrapeState :=
  let st := s.getD ⟨none, none⟩
  let st := if resetOffset then { st with resultsOffset := some 0 } else st
  let st := if resetEnriched then { st with enrichedMatchIds := some [] } else st
  { resultsOffset := some (st.resultsOffset.getD 0),
    enrichedMatchIds := some (st.enrichedMatchIds.getD []) }

/-- The state written by `create_missing_files` (recovery_helper.py lines
211-218) when `scrape_state.json` is absent. -/
def default_scrape_state : ScrapeState :=
  ⟨some 0, some []⟩

/-- The scrape-state part of the `--auto-fix` path of `recovery_helper.main`
(lines 256-291): `analyze_current_state` reads `results_offset` with
default 0 from the original file (`none` = file missing), missing files
are created, and when the analysed offset exceeds 50,000 the state is
reset and the action string "Reset high results_offset" is recorded. -/
def auto_fix_state (s : Option ScrapeState) : ScrapeState × List String :=
  let created : ScrapeState × List String :=
    match s with
    | none => (default_scrape_state, ["Created missing files: scrape_state.json"])
    | some st => (st, [])
  let offVal : Int :=
    match s with
    | none => 0
    | some st => st.resultsOffset.getD 0
  if offVal > 50000 then
    (reset_scrape_state true false (some created.1),
      created.2 ++ ["Reset high results_offset"])
  else created

/-- The inputs of `SystemMonitor.generate_health_score`
(monitor_system.py lines 164-187): the `is_stale` flags collected per
checked file, the odds-coverage and enrichment-rate percentages (absent
when the corresponding artifact was never analysed; `dict.get` then
defaults them to 100), and the `available` flags of the external service
checks. -/
structure MonitorInput where
  staleFlags : List Bool
  oddsCoverage : Option ℚ
  enrichmentRate : Option ℚ
  serviceAvailable : List Bool

/-- `SystemMonitor.generate_health_score`: start at 100, subtract 20 per
stale file, 15 when odds coverage is below 50, 15 when enrichment rate is
below 30, 10 per unavailable external service, and floor at 0. -/
def generate_health_score (i : MonitorInput) : Int :=
  let score : Int := 100
  let score := score - 20 * (i.staleFlags.countP (fun b => b) : Int)
  let score := if i.oddsCoverage.getD 100 < 50 then score - 15 else score
  let score := if i.enrichmentRate.getD 100 < 30 then score - 15 else score
  let score := score - 10 * (i.serviceAvailable.countP (fun b => !b) : Int)
  max 0 score

/-- `SystemMonitor.run_monitoring` (lines 205-228): the run is healthy
iff the floored overall score is at least 70. -/
def run_monitoring (i : MonitorInput) : Bool :=
  decide (generate_health_score i ≥ 70)

/-- `monitor_system.main` (lines 230-239): process result 1 when the
health check failed, 0 otherwise. -/
def monitor_exit_code (i : MonitorInput) : Nat :=
  if run_monitoring i then 0 else 1

/-- Observable actions of a `recovery_helper.main` run, in execution
order: a snapshot attempt (with its success flag), file creation, and the
three destructive repairs. -/
inductive RecoveryEvent where
  | backupAttempt (success : Bool)
  | createMissing
  | fixDuplicates
  | resetOffset
  | resetEnriched
deriving DecidableEq

/-- The destructive repairs: everything other than pure backup or file
creation. -/
def RecoveryEvent.destructive : RecoveryEvent → Bool
  | fixDuplicates => true
  | resetOffset => true
  | resetEnriched => true
  | _ => false

/-- Whether an event is a snapshot attempt. -/
def RecoveryEvent.isBackup : RecoveryEvent → Bool
  | backupAttempt _ => true
  | _ => false

/-- The event trace of the interactive path of `recovery_helper.main`
(lines 336-373) for a given menu choice: choices 2, 3, 4 and 6 first
attempt a backup and continue even when it fails ("Backup failed,
continuing anyway..."), then each selected repair runs; choice 5 is
backup only; choice 0 exits. -/
def interactive_trace (choice : String) (backupOk : Bool) : List RecoveryEvent :=
  if choice = "0" then []
  else
    (if choice = "2" ∨ choice = "3" ∨ choice = "4" ∨ choice = "6" then
      [RecoveryEvent.backupAttempt backupOk] else [])
    ++ (if choice = "1" ∨ choice = "6" then [RecoveryEvent.createMissing] else [])
    ++ (if choice = "2" ∨ choice = "6" then [RecoveryEvent.fixDuplicates] else [])
    ++ (if choice = "3" ∨ choice = "6" then [RecoveryEvent.resetOffset] else [])
    ++ (if choice = "4" ∨ choice = "6" then [RecoveryEvent.resetEnriched] else [])
    ++ (if choice = "5" then [RecoveryEvent.backupAttempt backupOk] else [])

/-- The event trace of the `--auto-fix` path of `recovery_helper.main`
(lines 256-291): create missing files, fix duplicates when the analysis
counted any, reset the offset when the analysed offset exceeds 50,000.
No backup is ever attempted on this path. -/
def auto_fix_trace (duplicates : Nat) (offset : Int) : List RecoveryEvent :=
  [RecoveryEvent.createMissing]
  ++ (if duplicates > 0 then [RecoveryEvent.fixDuplicates] else [])
  ++ (if offset > 50000 then [RecoveryEvent.resetOffset] else [])

/-- Claim C9's backup-first policy over a trace: every destructive event
is preceded by some snapshot attempt. -/
def backup_before_destructive (tr : List RecoveryEvent) : Prop :=
  ∀ i, (h : i < tr.length) → (tr.get ⟨i, h⟩).destructive = true →
    (tr.take i).any RecoveryEvent.isBackup = true

instance (tr : List RecoveryEvent) : Decidable (backup_before_destructive tr) :=
  Nat.decidableBallLT tr.length _

/-- A 12,000-record collection of distinct well-formed results (distinct
positive integer `match-id`s, present dates), instantiating the
truncation scenario of the spec. -/
def sampleResults : List MatchRec :=
  (List.range 12000).map (fun (i : Nat) =>
    ⟨some (.vInt ((i : Int) + 1)), some "2024-01-01", some "url"⟩)

/-- A 5,001-entry enrichment cache, instantiating the trim scenario. -/
def sampleEnriched : List (String × JVal) :=
  (List.range 5001).map (fun i => (toString i, JVal.vNull))

/-- The uniqueness relation the Deduplicator establishes: two output
records with truthy identity values never share that value. -/
def distinctTruthy (a b : MatchRec) : Prop :=
  a.pyId.truthy = true → b.pyId.truthy = true → a.pyId ≠ b.pyId

instance : DecidableRel distinctTruthy := by
  unfold distinctTruthy; infer_instance

/-! Order properties of the comparators, needed for `List.mergeSort`. -/

theorem jval_le_total (a b : JVal) : a.le b = true ∨ b.le a = true := by
  cases a <;> cases b <;> simp [JVal.le]
  · omega
  · exact le_total _ _

theorem jval_le_trans {a b c : JVal} (h1 : a.le b = true) (h2 : b.le c = true) :
    a.le c = true := by
  cases a <;> cases b <;> cases c <;> simp_all [JVal.le]
  · omega
  · exact h1.trans h2

theorem keyLe_total (a b : String × JVal) : keyLe a b = true ∨ keyLe b a = true := by
  unfold keyLe
  rcases lt_trichotomy a.1 b.1 with h | h | h
  · left; simp [h]
  · rcases jval_le_total a.2 b.2 with h2 | h2
    · left; simp [h, h2]
    · right; simp [h.symm, h2]
  · right; simp [h]

theorem keyLe_trans {a b c : String × JVal} (h1 : keyLe a b = true)
    (h2 : keyLe b c = true) : keyLe a c = true := by
  unfold keyLe at h1 h2 ⊢
  simp only [Bool.or_eq_true, Bool.and_eq_true, decide_eq_true_eq] at h1 h2 ⊢
  rcases h1 with h1 | ⟨h1e, h1le⟩ <;> rcases h2 with h2 | ⟨h2e, h2le⟩
  · exact Or.inl (h1.trans h2)
  · exact Or.inl (h2e ▸ h1)
  · exact Or.inl (h1e ▸ h2)
  · exact Or.inr ⟨h1e.trans h2e, jval_le_trans h1le h2le⟩

theorem resultsGe_trans : ∀ (a b c : MatchRec),
    resultsGe a b → resultsGe b c → resultsGe a c := by
  intro a b c h1 h2
  exact keyLe_trans h2 h1

theorem resultsGe_total : ∀ (a b : MatchRec), resultsGe a b || resultsGe b a := by
  intro a b
  rcases keyLe_total (sort_key b) (sort_key a) with h | h <;>
    simp [resultsGe, h]

theorem matchIdGe_trans : ∀ (a b c : MatchRec),
    matchIdGe a b → matchIdGe b c → matchIdGe a c := by
  intro a b c h1 h2
  exact jval_le_trans h2 h1

theorem matchIdGe_total : ∀ (a b : MatchRec), matchIdGe a b || matchIdGe b a := by
  intro a b
  rcases jval_le_total (b.matchId.getD (.vInt 0)) (a.matchId.getD (.vInt 0)) with h | h <;>
    simp [matchIdGe, h]

theorem enrichedKeyGe_trans : ∀ (a b c : String × JVal),
    enrichedKeyGe a b → enrichedKeyGe b c → enrichedKeyGe a c := by
  intro a b c h1 h2
  simp only [enrichedKeyGe, decide_eq_true_eq] at h1 h2 ⊢
  exact h2.trans h1

theorem enrichedKeyGe_total : ∀ (a b : String × JVal),
    enrichedKeyGe a b || enrichedKeyGe b a := by
  intro a b
  rcases le_total b.1 a.1 with h | h <;> simp [enrichedKeyGe, h]

/-! Behaviour of the deduplication loop. -/

theorem pyId_ne_of_truthy_of_falsy {a b : JVal} (ha : a.truthy = true)
    (hb : b.truthy = false) : b ≠ a := by
  intro h
  rw [h, ha] at hb
  simp at hb

theorem dedupeFilterAux_sublist (seen : List JVal) (l : List MatchRec) :
    (dedupeFilterAux seen l).Sublist l := by
  induction l generalizing seen with
  | nil => simp [dedupeFilterAux]
  | cons m rest ih =>
    rw [dedupeFilterAux]
    split
    · exact List.Sublist.cons₂ m (ih _)
    · split
      · exact List.Sublist.cons₂ m (ih _)
      · exact List.Sublist.cons m (ih _)

theorem dedupeFilterAux_not_seen (seen : List JVal) (l : List MatchRec) :
    ∀ r ∈ dedupeFilterAux seen l, r.pyId.truthy = true → r.pyId ∉ seen := by
  induction l generalizing seen with
  | nil => simp [dedupeFilterAux]
  | cons m rest ih =>
    rw [dedupeFilterAux]
    split
    case isTrue hc =>
      intro r hr ht
      rcases List.mem_cons.1 hr with rfl | hr'
      · exact hc.2
      · exact fun hs => ih (m.pyId :: seen) r hr' ht (List.mem_cons_of_mem _ hs)
    case isFalse hc =>
      split
      case isTrue hf =>
        intro r hr ht
        rcases List.mem_cons.1 hr with rfl | hr'
        · rw [ht] at hf; exact absurd hf (by simp)
        · exact ih seen r hr' ht
      case isFalse hf =>
        exact ih seen

theorem dedupeFilterAux_pairwise (seen : List JVal) (l : List MatchRec) :
    (dedupeFilterAux seen l).Pairwise distinctTruthy := by
  induction l generalizing seen with
  | nil => simp [dedupeFilterAux]
  | cons m rest ih =>
    rw [dedupeFilterAux]
    split
    case isTrue hc =>
      refine List.Pairwise.cons ?_ (ih _)
      intro r hr ht hrt
      have := dedupeFilterAux_not_seen (m.pyId :: seen) rest r hr hrt
      intro he
      exact this (he ▸ List.mem_cons_self _ _)
    case isFalse hc =>
      split
      case isTrue hf =>
        refine List.Pairwise.cons ?_ (ih _)
        intro r hr ht
        rw [ht] at hf
        exact absurd hf (by simp)
      case isFalse hf =>
        exact ih seen

theorem dedupeFilterAux_find (seen : List JVal) (l : List MatchRec) (v : JVal)
    (hv : v.truthy = true) (hs : v ∉ seen) :
    (dedupeFilterAux seen l).find? (fun r => decide (r.pyId = v)) =
      l.find? (fun r => decide (r.pyId = v)) := by
  induction l generalizing seen with
  | nil => simp [dedupeFilterAux]
  | cons m rest ih =>
    rw [dedupeFilterAux]
    split
    case isTrue hc =>
      by_cases he : m.pyId = v
      · simp [List.find?_cons, he]
      · rw [List.find?_cons_of_neg _ (by simp [he]), List.find?_cons_of_neg _ (by simp [he])]
        refine ih _ ?_
        intro hmem
        rcases List.mem_cons.1 hmem with hev | hsv
        · exact he hev.symm
        · exact hs hsv
    case isFalse hc =>
      split
      case isTrue hf =>
        have he : m.pyId ≠ v := pyId_ne_of_truthy_of_falsy hv hf
        rw [List.find?_cons_of_neg _ (by simp [he]), List.find?_cons_of_neg _ (by simp [he])]
        exact ih seen hs
      case isFalse hf =>
        have hm : m.pyId ∈ seen := by
          rcases not_and_or.1 hc with h | h
          · cases hb : m.pyId.truthy
            · exact absurd hb hf
            · exact absurd hb h
          · exact not_not.1 h
        have he : m.pyId ≠ v := fun h => hs (h ▸ hm)
        rw [List.find?_cons_of_neg _ (by simp [he])]
        exact ih seen hs

theorem dedupeFilterAux_falsy (seen : List JVal) (l : List MatchRec) :
    (dedupeFilterAux seen l).filter (fun r => !r.pyId.truthy) =
      l.filter (fun r => !r.pyId.truthy) := by
  induction l generalizing seen with
  | nil => simp [dedupeFilterAux]
  | cons m rest ih =>
    rw [dedupeFilterAux]
    split
    case isTrue hc =>
      rw [List.filter_cons_of_neg (by simp [hc.1]), List.filter_cons_of_neg (by simp [hc.1])]
      exact ih _
    case isFalse hc =>
      split
      case isTrue hf =>
        rw [List.filter_cons_of_pos (by simp [hf]), List.filter_cons_of_pos (by simp [hf])]
        rw [ih seen]
      case isFalse hf =>
        have ht : m.pyId.truthy = true := by
          cases hb : m.pyId.truthy
          · exact absurd hb hf
          · rfl
        rw [List.filter_cons_of_neg (by simp [ht])]
        exact ih seen

theorem dedupeCountAux_eq (seen : List JVal) (l : List MatchRec) :
    dedupeCountAux seen l = l.countP (fun r => !r.pyId.truthy) := by
  induction l generalizing seen with
  | nil => simp [dedupeCountAux]
  | cons m rest ih =>
    rw [dedupeCountAux]
    split
    case isTrue hc =>
      rw [List.countP_cons_of_neg _ _ (by simp [hc.1])]
      exact ih _
    case isFalse hc =>
      split
      case isTrue hf =>
        rw [List.countP_cons_of_pos _ _ (by simp [hf])]
        rw [ih seen]
      case isFalse hf =>
        have ht : m.pyId.truthy = true := by
          cases hb : m.pyId.truthy
          · exact absurd hb hf
          · rfl
        rw [List.countP_cons_of_neg _ _ (by simp [ht])]
        exact ih seen

theorem dedupeFilterAux_eq_self (seen : List JVal) (l : List MatchRec)
    (h1 : ∀ r ∈ l, r.pyId.truthy = true → r.pyId ∉ seen)
    (h2 : l.Pairwise distinctTruthy) :
    dedupeFilterAux seen l = l := by
  induction l generalizing seen with
  | nil => simp [dedupeFilterAux]
  | cons m rest ih =>
    rcases List.pairwise_cons.1 h2 with ⟨hm, hrest⟩
    rw [dedupeFilterAux]
    cases ht : m.pyId.truthy
    · rw [if_neg (by simp), if_pos rfl]
      rw [ih seen (fun r hr => h1 r (List.mem_cons_of_mem _ hr)) hrest]
    · rw [if_pos ⟨rfl, h1 m (List.mem_cons_self _ _) ht⟩]
      rw [ih _ ?_ hrest]
      intro r hr hrt hmem
      rcases List.mem_cons.1 hmem with he | hs
      · exact hm r hr ht hrt he.symm
      · exact h1 r (List.mem_cons_of_mem _ hr) hrt hs

theorem dedupe_filter_ne_nil (m : MatchRec) (l : List MatchRec) :
    dedupe_filter (m :: l) ≠ [] := by
  rw [dedupe_filter, dedupeFilterAux]
  cases ht : m.pyId.truthy
  · rw [if_neg (by simp), if_pos rfl]
    simp
  · rw [if_pos ⟨rfl, List.not_mem_nil _⟩]
    simp

theorem distinctTruthy_symm : ∀ {a b : MatchRec},
    distinctTruthy a b → distinctTruthy b a :=
  fun h hb ha he => h ha hb he.symm

theorem dedupe_filter_pairwise (l : List MatchRec) :
    (dedupe_filter l).Pairwise distinctTruthy :=
  dedupeFilterAux_pairwise [] l

theorem dedupe_filter_eq_self {l : List MatchRec}
    (h : l.Pairwise distinctTruthy) : dedupe_filter l = l := by
  rw [dedupe_filter]
  exact dedupeFilterAux_eq_self [] l (fun r _ _ => List.not_mem_nil _) h

theorem resultsGe_dates {a b : MatchRec} (h : resultsGe a b = true) :
    ∀ da db, a.date = some da → b.date = some db → db ≤ da := by
  intro da db hda hdb
  unfold resultsGe keyLe sort_key at h
  rw [hda, hdb] at h
  simp only [Option.getD_some, Bool.or_eq_true, Bool.and_eq_true, decide_eq_true_eq] at h
  rcases h with h | ⟨h, _⟩
  · exact le_of_lt h
  · exact le_of_eq h

theorem cleanup_results_pairwise_key (R : List MatchRec) :
    (cleanup_results_data R).Pairwise (fun a b => resultsGe a b = true) := by
  rw [cleanup_results_data]
  split
  case isTrue h =>
    rw [List.isEmpty_iff.1 h]
    exact List.Pairwise.nil
  case isFalse h =>
    have hs : ((dedupe_filter R).mergeSort resultsGe).Pairwise
        (fun a b => resultsGe a b = true) :=
      List.sorted_mergeSort resultsGe_trans resultsGe_total _
    dsimp only
    split
    · exact List.Pairwise.sublist (List.take_sublist _ _) hs
    · exact hs

theorem cleanup_results_pairwise_distinct (R : List MatchRec) :
    (cleanup_results_data R).Pairwise distinctTruthy := by
  rw [cleanup_results_data]
  split
  case isTrue h =>
    rw [List.isEmpty_iff.1 h]
    exact List.Pairwise.nil
  case isFalse h =>
    have hperm : List.Perm ((dedupe_filter R).mergeSort resultsGe) (dedupe_filter R) :=
      List.mergeSort_perm _ _
    have hp : ((dedupe_filter R).mergeSort resultsGe).Pairwise distinctTruthy :=
      (hperm.pairwise_iff distinctTruthy_symm).2 (dedupe_filter_pairwise R)
    dsimp only
    split
    · exact List.Pairwise.sublist (List.take_sublist _ _) hp
    · exact hp

theorem cleanup_results_length_le (R : List MatchRec) :
    (cleanup_results_data R).length ≤ 10000 := by
  rw [cleanup_results_data]
  split
  case isTrue h =>
    rw [List.isEmpty_iff.1 h]
    simp
  case isFalse h =>
    dsimp only
    split
    case isTrue hlen => simp [List.length_take]
    case isFalse hlen => omega

theorem dupErrorsAux_truthy (seen : List JVal) (i : Nat) (l : List MatchRec) :
    ∀ e ∈ dupErrorsAux seen i l, (e.2).truthy = true := by
  induction l generalizing seen i with
  | nil => simp [dupErrorsAux]
  | cons m rest ih =>
    rw [dupErrorsAux]
    split
    case isTrue ht =>
      split
      case isTrue hs =>
        intro e he
        rcases List.mem_cons.1 he with rfl | he'
        · exact ht
        · exact ih _ _ e he'
      case isFalse hs =>
        exact ih _ _
    case isFalse ht =>
      exact ih _ _

/-! Claim C1. -/

/-- C1, refuted as stated: two records whose `match-id` key is present
with the falsy value `0` are both kept by the deduplication loop, so the
output contains two records with a present identity field sharing the
same identity value. -/
theorem c1_counterexample :
    ¬ (∀ R : List MatchRec,
        (dedupe_filter R).Pairwise (fun a b =>
          a.matchId.isSome = true → b.matchId.isSome = true → a.matchId ≠ b.matchId)) := by
  intro h
  have h2 := h [⟨some (.vInt 0), none, some "a"⟩, ⟨some (.vInt 0), none, some "b"⟩]
  revert h2
  decide

/-- C1 (amended): in the deduplication output, no two records with a
present and truthy identity value share that value; a record whose
identity is truthy and already seen is dropped, the first occurrence in
original order being the one kept (the output is a sublist of the input
and, for every truthy value, the first matching record of input and
output agree); a record whose identity is absent or falsy is always kept
and never treated as a duplicate. -/
theorem c1_amended (R : List MatchRec) :
    (dedupe_filter R).Sublist R ∧
    (dedupe_filter R).Pairwise distinctTruthy ∧
    (∀ v : JVal, v.truthy = true →
      (dedupe_filter R).find? (fun r => decide (r.pyId = v)) =
        R.find? (fun r => decide (r.pyId = v))) ∧
    (dedupe_filter R).filter (fun r => !r.pyId.truthy) =
      R.filter (fun r => !r.pyId.truthy) :=
  ⟨dedupeFilterAux_sublist [] R, dedupeFilterAux_pairwise [] R,
    fun v hv => dedupeFilterAux_find [] R v hv (List.not_mem_nil _),
    dedupeFilterAux_falsy [] R⟩

/-- Witness for `c1_amended` at a concrete input with a duplicated truthy
id and an absent id. -/
theorem c1_amended_witness :
    (JVal.vInt 7).truthy = true ∧
    (dedupe_filter
        [⟨some (.vInt 7), none, some "x"⟩, ⟨some (.vInt 7), none, some "y"⟩,
          ⟨none, none, some "z"⟩]).find? (fun r => decide (r.pyId = .vInt 7)) =
      ([⟨some (.vInt 7), none, some "x"⟩, ⟨some (.vInt 7), none, some "y"⟩,
          ⟨none, none, some "z"⟩] : List MatchRec).find? (fun r => decide (r.pyId = .vInt 7)) :=
  ⟨by decide, (c1_amended _).2.2.1 (.vInt 7) (by decide)⟩

/-! Claim C2. -/

/-- C2: the full results cleanup (dedupe, sort, cap) is idempotent.  The
hypothesis restricts to inputs whose identity values are integers or
absent, the domain on which CPython's composite-key sort is defined
(mixed-type keys raise `TypeError`). -/
theorem c2_cleanup_idempotent (R : List MatchRec)
    (hInt : ∀ r ∈ R, r.intIdTyped = true) :
    cleanup_results_data (cleanup_results_data R) = cleanup_results_data R := by
  have hdistinct := cleanup_results_pairwise_distinct R
  have hkey := cleanup_results_pairwise_key R
  have hfix : dedupe_filter (cleanup_results_data R) = cleanup_results_data R :=
    dedupe_filter_eq_self hdistinct
  have hsort : (cleanup_results_data R).mergeSort resultsGe = cleanup_results_data R :=
    List.mergeSort_of_sorted hkey
  have hlen := cleanup_results_length_le R
  rw [cleanup_results_data]
  split
  case isTrue h => rfl
  case isFalse h =>
    dsimp only
    rw [hfix, hsort, if_neg (by omega)]

/-- Witness for `c2_cleanup_idempotent` at a concrete two-record input. -/
theorem c2_idempotent_witness :
    (∀ r ∈ ([⟨some (.vInt 2), some "2024-01-01", none⟩,
              ⟨some (.vInt 1), some "2023-01-01", none⟩] : List MatchRec),
        r.intIdTyped = true) ∧
    cleanup_results_data (cleanup_results_data
        [⟨some (.vInt 2), some "2024-01-01", none⟩,
          ⟨some (.vInt 1), some "2023-01-01", none⟩]) =
      cleanup_results_data
        [⟨some (.vInt 2), some "2024-01-01", none⟩,
          ⟨some (.vInt 1), some "2023-01-01", none⟩] :=
  ⟨by decide, c2_cleanup_idempotent _ (by decide)⟩

/-! Claim C3. -/

/-- C3, refuted as stated: the recovery path `fix_duplicate_matches`,
cited by the claim, sorts by `match-id` descending only, so after its
deduplication adjacent output records with present dates need not have
descending dates. -/
theorem c3_counterexample :
    ¬ (∀ R : List MatchRec, (fix_duplicate_matches R).Chain'
        (fun a b => ∀ da db, a.date = some da → b.date = some db → db ≤ da)) := by
  intro h
  have heval : fix_duplicate_matches
      [⟨some (.vInt 2), some "2023-01-01", none⟩,
        ⟨some (.vInt 1), some "2024-01-01", none⟩] =
      [⟨some (.vInt 2), some "2023-01-01", none⟩,
        ⟨some (.vInt 1), some "2024-01-01", none⟩] := by
    rw [fix_duplicate_matches]
    have hd : dedupe_filter
        [(⟨some (.vInt 2), some "2023-01-01", none⟩ : MatchRec),
          ⟨some (.vInt 1), some "2024-01-01", none⟩] =
        [⟨some (.vInt 2), some "2023-01-01", none⟩,
          ⟨some (.vInt 1), some "2024-01-01", none⟩] := by decide
    rw [hd]
    exact List.mergeSort_of_sorted (by decide)
  have h2 := h [⟨some (.vInt 2), some "2023-01-01", none⟩,
    ⟨some (.vInt 1), some "2024-01-01", none⟩]
  rw [heval] at h2
  have h3 := (List.chain'_cons.1 h2).1 "2023-01-01" "2024-01-01" rfl rfl
  rw [String.le_iff_toList_le] at h3
  revert h3
  decide

/-- C3 (amended): the cleanup path sorts the deduplicated results by the
composite key (date descending with `1900-01-01` as default, then
identity descending), so its adjacent output records with present dates
descend; the recovery path `fix_duplicate_matches` instead sorts by
`match-id` descending only.  Hypothesis as in `c2_cleanup_idempotent`. -/
theorem c3_amended (R : List MatchRec) (hInt : ∀ r ∈ R, r.intIdTyped = true) :
    (cleanup_results_data R).Chain' (fun a b => resultsGe a b = true) ∧
    (cleanup_results_data R).Chain'
      (fun a b => ∀ da db, a.date = some da → b.date = some db → db ≤ da) ∧
    (fix_duplicate_matches R).Chain' (fun a b => matchIdGe a b = true) := by
  refine ⟨(cleanup_results_pairwise_key R).chain', ?_, ?_⟩
  · refine List.Chain'.imp ?_ (cleanup_results_pairwise_key R).chain'
    intro a b hab
    exact resultsGe_dates hab
  · exact (List.sorted_mergeSort matchIdGe_trans matchIdGe_total _).chain'

/-- Witness for `c3_amended` at a concrete two-record input. -/
theorem c3_amended_witness :
    (∀ r ∈ ([⟨some (.vInt 1), some "2023-01-01", none⟩,
              ⟨some (.vInt 2), some "2024-01-01", none⟩] : List MatchRec),
        r.intIdTyped = true) ∧
    (cleanup_results_data
        [⟨some (.vInt 1), some "2023-01-01", none⟩,
          ⟨some (.vInt 2), some "2024-01-01", none⟩]).Chain'
      (fun a b => ∀ da db, a.date = some da → b.date = some db → db ≤ da) :=
  ⟨by decide, (c3_amended _ (by decide)).2.1⟩

/-! Claim C4. -/

/-- C4: the results output never exceeds 10,000 records, and on an input
of more than 10,000 distinct well-formed records (distinct truthy integer
ids, present dates) exactly 10,000 remain and every kept record's date is
at least every dropped record's date: the truncation removes only the
oldest tail. -/
theorem c4_cap_and_truncation (R : List MatchRec) :
    (cleanup_results_data R).length ≤ 10000 ∧
    (10000 < R.length →
      (∀ r ∈ R, r.intIdTyped = true) →
      (∀ r ∈ R, r.pyId.truthy = true) →
      R.Pairwise (fun a b => a.pyId ≠ b.pyId) →
      (∀ r ∈ R, r.date.isSome = true) →
      (cleanup_results_data R).length = 10000 ∧
      ∃ dropped : List MatchRec,
        List.Perm (cleanup_results_data R ++ dropped) R ∧
        ∀ a ∈ cleanup_results_data R, ∀ b ∈ dropped,
          ∀ da db, a.date = some da → b.date = some db → db ≤ da) := by
  refine ⟨cleanup_results_length_le R, ?_⟩
  intro hlen hInt htruthy hdistinct hdates
  have hne : ¬ R.isEmpty = true := by
    rw [List.isEmpty_iff]
    intro h
    rw [h] at hlen
    simp at hlen
  have hfix : dedupe_filter R = R :=
    dedupe_filter_eq_self (hdistinct.imp (fun h _ _ => h))
  have hcleanup : cleanup_results_data R = (R.mergeSort resultsGe).take 10000 := by
    rw [cleanup_results_data, if_neg hne]
    dsimp only
    rw [hfix]
    rw [if_pos (by rw [List.length_mergeSort]; omega)]
  have hpw : (R.mergeSort resultsGe).Pairwise (fun a b => resultsGe a b = true) :=
    List.sorted_mergeSort resultsGe_trans resultsGe_total R
  have hsplit : (R.mergeSort resultsGe).take 10000 ++ (R.mergeSort resultsGe).drop 10000 =
      R.mergeSort resultsGe := List.take_append_drop _ _
  refine ⟨?_, (R.mergeSort resultsGe).drop 10000, ?_, ?_⟩
  · rw [hcleanup, List.length_take, List.length_mergeSort]
    omega
  · rw [hcleanup, hsplit]
    exact List.mergeSort_perm R resultsGe
  · intro a ha b hb
    rw [hcleanup] at ha
    have hcross := (List.pairwise_append.1 (hsplit ▸ hpw)).2.2 a ha b hb
    exact resultsGe_dates hcross

/-- Witness for `c4_cap_and_truncation` at the 12,000-record sample. -/
theorem c4_truncation_witness :
    10000 < sampleResults.length ∧
    (cleanup_results_data sampleResults).length = 10000 ∧
    ∃ dropped : List MatchRec,
      List.Perm (cleanup_results_data sampleResults ++ dropped) sampleResults ∧
      ∀ a ∈ cleanup_results_data sampleResults, ∀ b ∈ dropped,
        ∀ da db, a.date = some da → b.date = some db → db ≤ da := by
  have hlen : sampleResults.length = 12000 := by
    rw [sampleResults, List.length_map, List.length_range]
  refine ⟨by omega, ?_⟩
  refine (c4_cap_and_truncation sampleResults).2 (by omega) ?_ ?_ ?_ ?_
  · intro r hr
    simp only [sampleResults, List.mem_map] at hr
    obtain ⟨i, _, rfl⟩ := hr
    rfl
  · intro r hr
    simp only [sampleResults, List.mem_map] at hr
    obtain ⟨i, _, rfl⟩ := hr
    simp only [MatchRec.pyId, Option.getD_some, JVal.truthy, decide_eq_true_eq]
    omega
  · rw [sampleResults, List.pairwise_map]
    refine (List.pairwise_lt_range 12000).imp ?_
    intro a b hab
    simp only [MatchRec.pyId, Option.getD_some, ne_eq, JVal.vInt.injEq]
    omega
  · intro r hr
    simp only [sampleResults, List.mem_map] at hr
    obtain ⟨i, _, rfl⟩ := hr
    rfl

/-! State reconciliation lemmas. -/

theorem cleanup_state_offset (s : ScrapeState) :
    (cleanup_state s).1.resultsOffset =
      (if s.resultsOffset.getD 0 > 50000 then some 0 else s.resultsOffset) := by
  rw [cleanup_state]
  dsimp only
  by_cases h : s.resultsOffset.getD 0 > 50000
  · rw [if_pos h, if_pos h]
    dsimp only
    split <;> rfl
  · rw [if_neg h, if_neg h]
    split <;> rfl

theorem cleanup_state_enriched (s : ScrapeState) :
    (cleanup_state s).1.enrichedMatchIds =
      (if (s.enrichedMatchIds.getD []).length > 5000 then
        some (((s.enrichedMatchIds.getD []).mergeSort enrichedKeyGe).take 5000)
      else s.enrichedMatchIds) := by
  rw [cleanup_state]
  dsimp only
  by_cases h : s.resultsOffset.getD 0 > 50000 <;>
    by_cases h2 : (s.enrichedMatchIds.getD []).length > 5000
  · rw [if_pos h]
    dsimp only
    rw [if_pos h2, if_pos h2]
  · rw [if_pos h]
    dsimp only
    rw [if_neg h2, if_neg h2]
  · rw [if_neg h]
    dsimp only
    rw [if_pos h2, if_pos h2]
  · rw [if_neg h]
    dsimp only
    rw [if_neg h2, if_neg h2]

/-! Claim C5. -/

/-- C5: after the cleanup-script reconciliation the offset (read with
default 0 as the script does) is at most 50,000 and the stored offset is
unchanged whenever the input offset was already at most 50,000; on the
state with offset 75,000 and an empty cache, the automated recovery
resets the offset to 0 and records the action "Reset high
results_offset". -/
theorem c5_offset_bound (s : ScrapeState) :
    (cleanup_state s).1.resultsOffset.getD 0 ≤ 50000 ∧
    (s.resultsOffset.getD 0 ≤ 50000 →
      (cleanup_state s).1.resultsOffset = s.resultsOffset) ∧
    auto_fix_state (some ⟨some 75000, some []⟩) =
      (⟨some 0, some []⟩, ["Reset high results_offset"]) := by
  refine ⟨?_, ?_, by decide⟩
  · rw [cleanup_state_offset]
    split
    case isTrue h => simp
    case isFalse h => omega
  · intro hle
    rw [cleanup_state_offset, if_neg (by omega)]

/-- Witness for `c5_offset_bound` at an in-bounds offset. -/
theorem c5_offset_witness :
    ((⟨some 40000, none⟩ : ScrapeState).resultsOffset.getD 0 ≤ 50000) ∧
    (cleanup_state ⟨some 40000, none⟩).1.resultsOffset = some 40000 :=
  ⟨by decide, (c5_offset_bound ⟨some 40000, none⟩).2.1 (by decide)⟩

/-! Claim C6. -/

/-- C6: after reconciliation the enrichment cache holds at most 5,000
entries; a cache of at most 5,000 entries is left unchanged; a larger
cache is replaced by exactly 5,000 entries, sorted by key descending,
every retained key being at least every evicted key. -/
theorem c6_enrichment_cap (s : ScrapeState) :
    ((cleanup_state s).1.enrichedMatchIds.getD []).length ≤ 5000 ∧
    ((s.enrichedMatchIds.getD []).length ≤ 5000 →
      (cleanup_state s).1.enrichedMatchIds = s.enrichedMatchIds) ∧
    (5000 < (s.enrichedMatchIds.getD []).length →
      ((cleanup_state s).1.enrichedMatchIds.getD []).length = 5000 ∧
      ((cleanup_state s).1.enrichedMatchIds.getD []).Pairwise
        (fun a b => enrichedKeyGe a b = true) ∧
      ∃ evicted : List (String × JVal),
        List.Perm (((cleanup_state s).1.enrichedMatchIds.getD []) ++ evicted)
          (s.enrichedMatchIds.getD []) ∧
        ∀ a ∈ (cleanup_state s).1.enrichedMatchIds.getD [], ∀ b ∈ evicted,
          b.1 ≤ a.1) := by
  refine ⟨?_, ?_, ?_⟩
  · rw [cleanup_state_enriched]
    split
    case isTrue h => simp [List.length_take]
    case isFalse h => omega
  · intro hle
    rw [cleanup_state_enriched, if_neg (by omega)]
  · intro hgt
    rw [cleanup_state_enriched, if_pos hgt]
    have hpw : ((s.enrichedMatchIds.getD []).mergeSort enrichedKeyGe).Pairwise
        (fun a b => enrichedKeyGe a b = true) :=
      List.sorted_mergeSort enrichedKeyGe_trans enrichedKeyGe_total _
    have hsplit : ((s.enrichedMatchIds.getD []).mergeSort enrichedKeyGe).take 5000 ++
        ((s.enrichedMatchIds.getD []).mergeSort enrichedKeyGe).drop 5000 =
        (s.enrichedMatchIds.getD []).mergeSort enrichedKeyGe :=
      List.take_append_drop _ _
    refine ⟨?_, ?_, ((s.enrichedMatchIds.getD []).mergeSort enrichedKeyGe).drop 5000,
      ?_, ?_⟩
    · rw [Option.getD_some, List.length_take, List.length_mergeSort]
      omega
    · rw [Option.getD_some]
      exact List.Pairwise.sublist (List.take_sublist _ _) hpw
    · rw [Option.getD_some, hsplit]
      exact List.mergeSort_perm _ _
    · intro a ha b hb
      rw [Option.getD_some] at ha
      have hcross := (List.pairwise_append.1 (hsplit ▸ hpw)).2.2 a ha b hb
      simpa [enrichedKeyGe] using hcross

set_option maxRecDepth 8000 in
/-- Witness for `c6_enrichment_cap` at a 5,001-entry cache. -/
theorem c6_enrichment_witness :
    5000 < ((⟨none, some sampleEnriched⟩ : ScrapeState).enrichedMatchIds.getD []).length ∧
    ((cleanup_state ⟨none, some sampleEnriched⟩).1.enrichedMatchIds.getD []).length = 5000 := by
  have hlen : sampleEnriched.length = 5001 := by
    rw [sampleEnriched, List.length_map, List.length_range]
  have h5 : 5000 < ((⟨none, some sampleEnriched⟩ : ScrapeState).enrichedMatchIds.getD []).length := by
    show 5000 < sampleEnriched.length
    omega
  exact ⟨h5, ((c6_enrichment_cap _).2.2 h5).1⟩

/-! Claim C7. -/

/-- C7, refuted as stated: the cleanup-script reconciliation writes the
state back with both required fields still absent when the input lacked
them - it never initializes missing fields. -/
theorem c7_counterexample :
    ¬ (∀ s : ScrapeState,
        (cleanup_state s).1.resultsOffset.isSome = true ∧
        (cleanup_state s).1.enrichedMatchIds.isSome = true) := by
  intro h
  have h2 := h ⟨none, none⟩
  revert h2
  decide

/-- C7 (amended): the recovery-helper reconciliation `reset_scrape_state`
always leaves both required fields present (initializing absent ones to 0
and the empty mapping), while the cleanup-script reconciliation only
rewrites values and leaves the presence of each field exactly as it found
it. -/
theorem c7_amended :
    (∀ (ro re : Bool) (s : Option ScrapeState),
      (reset_scrape_state ro re s).resultsOffset.isSome = true ∧
      (reset_scrape_state ro re s).enrichedMatchIds.isSome = true) ∧
    (∀ s : ScrapeState,
      (cleanup_state s).1.resultsOffset.isSome = s.resultsOffset.isSome ∧
      (cleanup_state s).1.enrichedMatchIds.isSome = s.enrichedMatchIds.isSome) := by
  constructor
  · intro ro re s
    exact ⟨rfl, rfl⟩
  · intro s
    constructor
    · rw [cleanup_state_offset]
      split
      case isTrue h =>
        cases hs : s.resultsOffset with
        | none =>
          rw [hs] at h
          simp only [Option.getD_none] at h
          exact absurd h (by omega)
        | some v => rfl
      case isFalse h => rfl
    · rw [cleanup_state_enriched]
      split
      case isTrue h =>
        cases hs : s.enrichedMatchIds with
        | none =>
          rw [hs] at h
          simp only [Option.getD_none, List.length_nil] at h
          exact absurd h (by omega)
        | some e => rfl
      case isFalse h => rfl

/-! Claim C8. -/

/-- C8: the health score equals 100 minus 20 per stale file, minus 15
when odds coverage is below 50, minus 15 when enrichment rate is below
30, minus 10 per unreachable external service, floored at 0; a
monitoring run whose score is below 70 yields a nonzero process result
and a run with score at least 70 yields zero. -/
theorem c8_health_score (i : MonitorInput) :
    generate_health_score i =
      max 0 (100 - 20 * (i.staleFlags.countP (fun b => b) : Int)
        - (if i.oddsCoverage.getD 100 < 50 then 15 else 0)
        - (if i.enrichmentRate.getD 100 < 30 then 15 else 0)
        - 10 * (i.serviceAvailable.countP (fun b => !b) : Int)) ∧
    (generate_health_score i < 70 → monitor_exit_code i ≠ 0) ∧
    (70 ≤ generate_health_score i → monitor_exit_code i = 0) := by
  refine ⟨?_, ?_, ?_⟩
  · rw [generate_health_score]
    split_ifs <;> omega
  · intro h
    rw [monitor_exit_code, run_monitoring,
      if_neg (by simp only [decide_eq_true_eq]; omega)]
    omega
  · intro h
    rw [monitor_exit_code, run_monitoring,
      if_pos (by simp only [decide_eq_true_eq]; omega)]

/-- Witness for `c8_health_score`: an unhealthy run (two stale files, low
odds coverage, one unreachable service: score 35) and a healthy run
(score 100). -/
theorem c8_health_witness :
    generate_health_score ⟨[true, true], some 40, some 100, [false]⟩ < 70 ∧
    monitor_exit_code ⟨[true, true], some 40, some 100, [false]⟩ ≠ 0 ∧
    70 ≤ generate_health_score ⟨[], some 100, some 100, []⟩ ∧
    monitor_exit_code ⟨[], some 100, some 100, []⟩ = 0 := by
  refine ⟨by decide, ?_, by decide, ?_⟩
  · exact (c8_health_score _).2.1 (by decide)
  · exact (c8_health_score _).2.2 (by decide)

/-! Claim C9. -/

/-- C9, refuted as stated: the automated recovery path applies the
destructive duplicate repair with no snapshot attempt anywhere in the
run (analysis reporting 3 duplicates, offset 0). -/
theorem c9_counterexample :
    ¬ backup_before_destructive (auto_fix_trace 3 0) := by
  decide

/-- C9 (amended): in the interactive path every destructive action is
preceded by a snapshot attempt (the run then starts with it), but a
failed snapshot does not stop execution - choice "2" with a failing
backup still runs the duplicate repair with only a warning; the
automated path performs its destructive repairs with no snapshot at
all. -/
theorem c9_amended :
    (∀ (choice : String) (b : Bool), ∀ e ∈ interactive_trace choice b,
      e.destructive = true →
        (interactive_trace choice b).head? = some (.backupAttempt b)) ∧
    interactive_trace "2" false = [.backupAttempt false, .fixDuplicates] ∧
    (∀ (d : Nat) (off : Int), ∀ e ∈ auto_fix_trace d off, e.isBackup = false) := by
  refine ⟨?_, by decide, ?_⟩
  · intro choice b e he hd
    by_cases h0 : choice = "0"
    · rw [interactive_trace, if_pos h0] at he
      exact absurd he (List.not_mem_nil _)
    · by_cases hA : choice = "2" ∨ choice = "3" ∨ choice = "4" ∨ choice = "6"
      · rw [interactive_trace, if_neg h0, if_pos hA]
        rfl
      · rw [interactive_trace, if_neg h0, if_neg hA] at he
        have h2 : ¬(choice = "2" ∨ choice = "6") := by
          rintro (h | h)
          · exact hA (Or.inl h)
          · exact hA (Or.inr (Or.inr (Or.inr h)))
        have h3 : ¬(choice = "3" ∨ choice = "6") := by
          rintro (h | h)
          · exact hA (Or.inr (Or.inl h))
          · exact hA (Or.inr (Or.inr (Or.inr h)))
        have h4 : ¬(choice = "4" ∨ choice = "6") := by
          rintro (h | h)
          · exact hA (Or.inr (Or.inr (Or.inl h)))
          · exact hA (Or.inr (Or.inr (Or.inr h)))
        rw [if_neg h2, if_neg h3, if_neg h4] at he
        simp only [List.nil_append, List.append_nil] at he
        rcases List.mem_append.1 he with h | h
        · split at h
          · rw [List.mem_singleton] at h
            subst h
            simp [RecoveryEvent.destructive] at hd
          · exact absurd h (List.not_mem_nil _)
        · split at h
          · rw [List.mem_singleton] at h
            subst h
            simp [RecoveryEvent.destructive] at hd
          · exact absurd h (List.not_mem_nil _)
  · intro d off e he
    rw [auto_fix_trace] at he
    by_cases hd : d > 0 <;> by_cases hoff : off > 50000
    · rw [if_pos hd, if_pos hoff] at he
      fin_cases he <;> rfl
    · rw [if_pos hd, if_neg hoff] at he
      fin_cases he <;> rfl
    · rw [if_neg hd, if_pos hoff] at he
      fin_cases he <;> rfl
    · rw [if_neg hd, if_neg hoff] at he
      fin_cases he <;> rfl

/-- Witness for `c9_amended`: choice "2" with a succeeding backup runs
the destructive duplicate repair and the trace starts with the backup
attempt. -/
theorem c9_amended_witness :
    RecoveryEvent.fixDuplicates ∈ interactive_trace "2" true ∧
    RecoveryEvent.fixDuplicates.destructive = true ∧
    (interactive_trace "2" true).head? = some (.backupAttempt true) :=
  ⟨by decide, by decide, c9_amended.1 "2" true .fixDuplicates (by decide) (by decide)⟩

/-! Claim C10. -/

/-- C10: a record whose `match-id` is present but falsy (0, empty string
or null) is treated like a record with no identity: the validator's
duplicate detection only ever reports truthy values, so such records are
never reported as duplicates of each other, and the deduplication loop
keeps every falsy-id record - the falsy-id sublist of the output equals
that of the input even when several records share the same falsy value -
while emitting one missing-id warning per falsy-id record. -/
theorem c10_falsy_ids (R : List MatchRec) :
    (∀ e ∈ duplicate_id_errors R, (e.2).truthy = true) ∧
    (dedupe_filter R).filter (fun r => !r.pyId.truthy) =
      R.filter (fun r => !r.pyId.truthy) ∧
    dedupe_warnings R = R.countP (fun r => !r.pyId.truthy) :=
  ⟨dupErrorsAux_truthy [] 0 R, dedupeFilterAux_falsy [] R, dedupeCountAux_eq [] R⟩

/-- Witness for `c10_falsy_ids`: a genuine duplicate error carries a
truthy value, and the two-record input sharing falsy match-id 0 keeps
both records with two warnings. -/
theorem c10_falsy_witness :
    ((1 : Nat), JVal.vInt 5) ∈ duplicate_id_errors
        [⟨some (.vInt 5), none, none⟩, ⟨some (.vInt 5), none, none⟩] ∧
    (JVal.vInt 5).truthy = true ∧
    dedupe_warnings [(⟨some (.vInt 0), none, some "a"⟩ : MatchRec),
        ⟨some (.vInt 0), none, some "b"⟩] = 2 ∧
    dedupe_filter [(⟨some (.vInt 0), none, some "a"⟩ : MatchRec),
        ⟨some (.vInt 0), none, some "b"⟩] =
      [⟨some (.vInt 0), none, some "a"⟩, ⟨some (.vInt 0), none, some "b"⟩] :=
  ⟨by decide,
    (c10_falsy_ids
      [⟨some (.vInt 5), none, none⟩, ⟨some (.vInt 5), none, none⟩]).1
      (1, .vInt 5) (by decide),
    by decide, by decide⟩

end Hltvy
